import Mathlib

/-!
Verification development for the wheel-of-life repository.

The repository is a browser application that records self-assessments across
nine life dimensions, encrypts the assessment document with a password, and
stores the sealed envelope in a remote GitHub repository.  This file gives a
shallow embedding of the algorithmic core:

* `CryptoModule` (src/js/crypto.js): envelope layout, base64 transport codec,
  key derivation and AEAD are the platform Web Crypto / `btoa` / `atob`
  primitives; the base64 codec is embedded concretely, while the KDF, the
  AEAD cipher and the JSON serialization are modelled from the spec
  (deterministic KDF, authenticated encryption with a 16-byte tag, exact
  round-tripping canonical serialization).
* `GitHubModule.fetchEncryptedData` (src/js/crypto.js): the versioned store
  client, modelled over an abstract HTTP response.
* `WheelChart` (src/js/visualization.js and the analytics part of the app):
  balance score, period averages, date-range filtering.
* `App` (main application file): the entry-submission handler and `saveData`.

Numbers: machine integers are modelled as `Nat`/`Int`; the statistical
functions that the source computes with JS doubles are modelled exactly over
`ℚ`/`ℝ` (`Math.sqrt` becomes `Real.sqrt`, `Math.round x` becomes
`⌊x + 1/2⌋`).  Byte strings are `List Nat` with values below 256.
-/

namespace WheelOfLife

/-! ## Data model (spec §3, §6)

`Ratings` is the spec's RatingSet: nine integer dimensions.  `Entry` and
`Doc` mirror the persisted plaintext JSON schema; timestamps are modelled as
epoch milliseconds (`Int`), strings as lists of character codes. -/

structure Ratings where
  body : Int
  mind : Int
  soul : Int
  friends : Int
  romance : Int
  family : Int
  mission : Int
  money : Int
  growth : Int
deriving DecidableEq, Repr

structure Entry where
  id : List Nat
  timestamp : Int
  ratings : Ratings
  notes : List Nat
deriving DecidableEq, Repr

structure Doc where
  entries : List Entry
  version : List Nat
deriving DecidableEq, Repr

/-! ## Serialization codec

Modelled from the spec: spec §4.2 step 3 requires only "a canonical byte
encoding (its JSON form is sufficient as long as round-trip is exact)" for
the document; the source uses the platform `JSON.stringify`/`JSON.parse`
with `TextEncoder`/`TextDecoder`, which are not part of the repository.  We
embed a concrete self-delimiting canonical encoding of the document schema
of spec §6 whose bytes are all below 256, together with its decoder. -/

def encodeNat : Nat → List Nat
  | 0 => [0]
  | n + 1 => 1 :: encodeNat n

def decodeNat : List Nat → Option (Nat × List Nat)
  | 0 :: rest => some (0, rest)
  | 1 :: rest => (decodeNat rest).map (fun p => (p.1 + 1, p.2))
  | _ => none

def encodeNats : List Nat → List Nat
  | [] => []
  | x :: xs => encodeNat x ++ encodeNats xs

def decodeNats : Nat → List Nat → Option (List Nat × List Nat)
  | 0, rest => some ([], rest)
  | n + 1, input =>
    (decodeNat input).bind fun p =>
      (decodeNats n p.2).map fun q => (p.1 :: q.1, q.2)

def encodeNatList (s : List Nat) : List Nat :=
  encodeNat s.length ++ encodeNats s

def decodeNatList (input : List Nat) : Option (List Nat × List Nat) :=
  (decodeNat input).bind fun p => decodeNats p.1 p.2

def encodeInt (i : Int) : List Nat :=
  (if i < 0 then 1 else 0) :: encodeNat i.natAbs

def decodeInt : List Nat → Option (Int × List Nat)
  | 0 :: rest => (decodeNat rest).map (fun p => ((p.1 : Int), p.2))
  | 1 :: rest => (decodeNat rest).map (fun p => (-(p.1 : Int), p.2))
  | _ => none

def encodeRatings (r : Ratings) : List Nat :=
  encodeInt r.body ++ encodeInt r.mind ++ encodeInt r.soul ++
  encodeInt r.friends ++ encodeInt r.romance ++ encodeInt r.family ++
  encodeInt r.mission ++ encodeInt r.money ++ encodeInt r.growth

def decodeRatings (input : List Nat) : Option (Ratings × List Nat) := do
  let (body, i1) ← decodeInt input
  let (mind, i2) ← decodeInt i1
  let (soul, i3) ← decodeInt i2
  let (friends, i4) ← decodeInt i3
  let (romance, i5) ← decodeInt i4
  let (family, i6) ← decodeInt i5
  let (mission, i7) ← decodeInt i6
  let (money, i8) ← decodeInt i7
  let (growth, i9) ← decodeInt i8
  some (⟨body, mind, soul, friends, romance, family, mission, money, growth⟩, i9)

def encodeEntry (e : Entry) : List Nat :=
  encodeNatList e.id ++ encodeInt e.timestamp ++ encodeRatings e.ratings ++
  encodeNatList e.notes

def decodeEntry (input : List Nat) : Option (Entry × List Nat) := do
  let (id, i1) ← decodeNatList input
  let (ts, i2) ← decodeInt i1
  let (r, i3) ← decodeRatings i2
  let (notes, i4) ← decodeNatList i3
  some (⟨id, ts, r, notes⟩, i4)

def encodeEntries : List Entry → List Nat
  | [] => []
  | e :: es => encodeEntry e ++ encodeEntries es

def decodeEntries : Nat → List Nat → Option (List Entry × List Nat)
  | 0, rest => some ([], rest)
  | n + 1, input =>
    (decodeEntry input).bind fun p =>
      (decodeEntries n p.2).map fun q => (p.1 :: q.1, q.2)

/-- Serialize a document; stands in for
`TextEncoder.encode(JSON.stringify(data))` in `CryptoModule.encrypt`. -/
def encodeDoc (d : Doc) : List Nat :=
  encodeNat d.entries.length ++ encodeEntries d.entries ++ encodeNatList d.version

/-- Deserialize a document; stands in for
`JSON.parse(TextDecoder.decode(...))` in `CryptoModule.decrypt`.  Fails
(`none`, the JS `SyntaxError` from `JSON.parse`) on bytes that are not a
serialized document. -/
def decodeDoc (input : List Nat) : Option Doc := do
  let (n, i1) ← decodeNat input
  let (es, i2) ← decodeEntries n i1
  let (v, i3) ← decodeNatList i2
  if i3 = [] then some ⟨es, v⟩ else none

theorem decodeNat_encodeNat (n : Nat) (rest : List Nat) :
    decodeNat (encodeNat n ++ rest) = some (n, rest) := by
  induction n with
  | zero => rfl
  | succ k ih => simp [encodeNat, decodeNat, ih]

theorem decodeNats_encodeNats (s : List Nat) (rest : List Nat) :
    decodeNats s.length (encodeNats s ++ rest) = some (s, rest) := by
  induction s with
  | nil => rfl
  | cons x xs ih =>
    simp [encodeNats, decodeNats, List.append_assoc, decodeNat_encodeNat, ih]

theorem decodeNatList_encodeNatList (s : List Nat) (rest : List Nat) :
    decodeNatList (encodeNatList s ++ rest) = some (s, rest) := by
  simp [encodeNatList, decodeNatList, List.append_assoc, decodeNat_encodeNat,
    decodeNats_encodeNats]

theorem decodeInt_encodeInt (i : Int) (rest : List Nat) :
    decodeInt (encodeInt i ++ rest) = some (i, rest) := by
  by_cases h : i < 0
  · have hi : (-(i.natAbs : Int)) = i := by omega
    simp only [encodeInt, if_pos h, List.cons_append, decodeInt,
      decodeNat_encodeNat, Option.map_some', hi]
  · have hi : ((i.natAbs : Int)) = i := by omega
    simp only [encodeInt, if_neg h, List.cons_append, decodeInt,
      decodeNat_encodeNat, Option.map_some', hi]

theorem decodeRatings_encodeRatings (r : Ratings) (rest : List Nat) :
    decodeRatings (encodeRatings r ++ rest) = some (r, rest) := by
  simp [encodeRatings, decodeRatings, List.append_assoc, decodeInt_encodeInt]

theorem decodeEntry_encodeEntry (e : Entry) (rest : List Nat) :
    decodeEntry (encodeEntry e ++ rest) = some (e, rest) := by
  simp [encodeEntry, decodeEntry, List.append_assoc, decodeNatList_encodeNatList,
    decodeInt_encodeInt, decodeRatings_encodeRatings]

theorem decodeEntries_encodeEntries (es : List Entry) (rest : List Nat) :
    decodeEntries es.length (encodeEntries es ++ rest) = some (es, rest) := by
  induction es with
  | nil => rfl
  | cons e es ih =>
    simp [encodeEntries, decodeEntries, List.append_assoc,
      decodeEntry_encodeEntry, ih]

/-- The canonical serialization round-trips exactly (spec §4.2 step 3). -/
theorem decodeDoc_encodeDoc (d : Doc) : decodeDoc (encodeDoc d) = some d := by
  have hv := decodeNatList_encodeNatList d.version []
  rw [List.append_nil] at hv
  have h : encodeDoc d =
      encodeNat d.entries.length ++
        (encodeEntries d.entries ++ encodeNatList d.version) := by
    simp [encodeDoc]
  rw [h]
  simp [decodeDoc, decodeNat_encodeNat, decodeEntries_encodeEntries, hv]

theorem mem_encodeNat_lt {b n : Nat} (h : b ∈ encodeNat n) : b < 2 := by
  induction n with
  | zero => simp [encodeNat] at h; omega
  | succ k ih =>
    simp [encodeNat] at h
    rcases h with h | h
    · omega
    · exact ih h

theorem mem_encodeNats_lt {b : Nat} {s : List Nat} (h : b ∈ encodeNats s) : b < 2 := by
  induction s with
  | nil => simp [encodeNats] at h
  | cons x xs ih =>
    simp [encodeNats] at h
    rcases h with h | h
    · exact mem_encodeNat_lt h
    · exact ih h

theorem mem_encodeNatList_lt {b : Nat} {s : List Nat} (h : b ∈ encodeNatList s) :
    b < 2 := by
  simp [encodeNatList] at h
  rcases h with h | h
  · exact mem_encodeNat_lt h
  · exact mem_encodeNats_lt h

theorem mem_encodeInt_lt {b : Nat} {i : Int} (h : b ∈ encodeInt i) : b < 2 := by
  simp [encodeInt] at h
  rcases h with h | h
  · split at h <;> omega
  · exact mem_encodeNat_lt h

theorem mem_encodeRatings_lt {b : Nat} {r : Ratings} (h : b ∈ encodeRatings r) :
    b < 2 := by
  simp [encodeRatings] at h
  rcases h with h | h | h | h | h | h | h | h | h <;> exact mem_encodeInt_lt h

theorem mem_encodeEntry_lt {b : Nat} {e : Entry} (h : b ∈ encodeEntry e) : b < 2 := by
  simp [encodeEntry] at h
  rcases h with h | h | h | h
  · exact mem_encodeNatList_lt h
  · exact mem_encodeInt_lt h
  · exact mem_encodeRatings_lt h
  · exact mem_encodeNatList_lt h

theorem mem_encodeEntries_lt {b : Nat} {es : List Entry} (h : b ∈ encodeEntries es) :
    b < 2 := by
  induction es with
  | nil => simp [encodeEntries] at h
  | cons e es ih =>
    simp [encodeEntries] at h
    rcases h with h | h
    · exact mem_encodeEntry_lt h
    · exact ih h

theorem mem_encodeDoc_lt {b : Nat} {d : Doc} (h : b ∈ encodeDoc d) : b < 2 := by
  simp [encodeDoc] at h
  rcases h with h | h | h
  · exact mem_encodeNat_lt h
  · exact mem_encodeEntries_lt h
  · exact mem_encodeNatList_lt h

/-! ## Base64 transport codec

`CryptoModule.arrayBufferToBase64` builds a binary string whose character
codes are exactly the buffer's bytes and applies the platform `btoa`;
`CryptoModule.base64ToArrayBuffer` applies `atob` and reads the character
codes back.  Strings are modelled as lists of character codes, so the two
wrappers reduce to the base64 encoder and decoder themselves, which are
embedded concretely below.  `atobBytes` returns `none` exactly where `atob`
throws `InvalidCharacterError` (a character outside the base64 alphabet,
misplaced padding, or an input whose length is not a full number of
four-character groups; the encoder always emits padded groups). -/

/-- Character code of the base64 digit for a sextet below 64. -/
def b64Char (n : Nat) : Nat :=
  if n < 26 then 65 + n
  else if n < 52 then 97 + (n - 26)
  else if n < 62 then 48 + (n - 52)
  else if n = 62 then 43
  else 47

/-- Sextet value of a base64 digit character code; `none` off the alphabet. -/
def b64Index (c : Nat) : Option Nat :=
  if 65 ≤ c ∧ c ≤ 90 then some (c - 65)
  else if 97 ≤ c ∧ c ≤ 122 then some (c - 97 + 26)
  else if 48 ≤ c ∧ c ≤ 57 then some (c - 48 + 52)
  else if c = 43 then some 62
  else if c = 47 then some 63
  else none

theorem b64Index_b64Char : ∀ s : Nat, s < 64 → b64Index (b64Char s) = some s := by
  decide

theorem b64Char_ne_pad : ∀ s : Nat, s < 64 → b64Char s ≠ 61 := by
  decide

/-- Base64 encoder (the platform `btoa` on a binary string, for byte values
below 256), processing three bytes into one padded four-character group. -/
def btoaBytes : List Nat → List Nat
  | [] => []
  | [b0] => [b64Char (b0 / 4), b64Char (b0 % 4 * 16), 61, 61]
  | [b0, b1] =>
    [b64Char (b0 / 4), b64Char (b0 % 4 * 16 + b1 / 16), b64Char (b1 % 16 * 4), 61]
  | b0 :: b1 :: b2 :: rest =>
    b64Char (b0 / 4) :: b64Char (b0 % 4 * 16 + b1 / 16) ::
      b64Char (b1 % 16 * 4 + b2 / 64) :: b64Char (b2 % 64) :: btoaBytes rest

/-- Base64 decoder (the platform `atob` restricted to padded groups); as in
the platform, leftover bits of a final partial group are discarded. -/
def atobBytes : List Nat → Option (List Nat)
  | [] => some []
  | c0 :: c1 :: c2 :: c3 :: rest =>
    match b64Index c0, b64Index c1 with
    | some s0, some s1 =>
      if c2 = 61 then
        if c3 = 61 ∧ rest = [] then some [s0 * 4 + s1 / 16] else none
      else
        match b64Index c2 with
        | some s2 =>
          if c3 = 61 then
            if rest = [] then some [s0 * 4 + s1 / 16, s1 % 16 * 16 + s2 / 4]
            else none
          else
            match b64Index c3 with
            | some s3 =>
              (atobBytes rest).map
                (fun bs =>
                  (s0 * 4 + s1 / 16) :: (s1 % 16 * 16 + s2 / 4) ::
                    (s2 % 4 * 64 + s3) :: bs)
            | none => none
        | none => none
    | _, _ => none
  | _ => none

theorem mulAddDiv (k x y : Nat) (hk : 0 < k) : (x * k + y) / k = x + y / k := by
  rw [Nat.add_comm, Nat.add_mul_div_right _ _ hk, Nat.add_comm]

theorem mulAddMod (k x y : Nat) : (x * k + y) % k = y % k := by
  rw [Nat.add_comm, Nat.add_mul_mod_self_right]

/-- Decoding inverts encoding on genuine byte sequences. -/
theorem atobBytes_btoaBytes :
    ∀ bs : List Nat, (∀ b ∈ bs, b < 256) → atobBytes (btoaBytes bs) = some bs
  | [], _ => rfl
  | [b0], h => by
    have hb0 : b0 < 256 := h b0 (by simp)
    have h0 : b0 / 4 < 64 := by omega
    have h1 : b0 % 4 * 16 < 64 := by omega
    simp [btoaBytes, atobBytes, b64Index_b64Char _ h0, b64Index_b64Char _ h1]
    omega
  | [b0, b1], h => by
    have hb0 : b0 < 256 := h b0 (by simp)
    have hb1 : b1 < 256 := h b1 (by simp)
    have h0 : b0 / 4 < 64 := by omega
    have h1 : b0 % 4 * 16 + b1 / 16 < 64 := by omega
    have h2 : b1 % 16 * 4 < 64 := by omega
    have e1 : b0 / 4 * 4 + (b0 % 4 * 16 + b1 / 16) / 16 = b0 := by
      rw [mulAddDiv 16 _ _ (by norm_num)]; omega
    have em2 : (b0 % 4 * 16 + b1 / 16) % 16 = b1 / 16 := by
      rw [mulAddMod]; omega
    simp [btoaBytes, atobBytes, b64Index_b64Char _ h0, b64Index_b64Char _ h1,
      b64Index_b64Char _ h2, b64Char_ne_pad _ h2, e1, em2]
    omega
  | b0 :: b1 :: b2 :: rest, h => by
    have hb0 : b0 < 256 := h b0 (by simp)
    have hb1 : b1 < 256 := h b1 (by simp)
    have hb2 : b2 < 256 := h b2 (by simp)
    have h0 : b0 / 4 < 64 := by omega
    have h1 : b0 % 4 * 16 + b1 / 16 < 64 := by omega
    have h2 : b1 % 16 * 4 + b2 / 64 < 64 := by omega
    have h3 : b2 % 64 < 64 := by omega
    have ih := atobBytes_btoaBytes rest
      (fun b hb => h b (by simp; tauto))
    have e1 : b0 / 4 * 4 + (b0 % 4 * 16 + b1 / 16) / 16 = b0 := by
      rw [mulAddDiv 16 _ _ (by norm_num)]; omega
    have e2 : (b0 % 4 * 16 + b1 / 16) % 16 * 16 + (b1 % 16 * 4 + b2 / 64) / 4 = b1 := by
      rw [mulAddMod, mulAddDiv 4 _ _ (by norm_num)]; omega
    have e3 : (b1 % 16 * 4 + b2 / 64) % 4 * 64 + b2 % 64 = b2 := by
      rw [mulAddMod]; omega
    simp [btoaBytes, atobBytes, b64Index_b64Char _ h0, b64Index_b64Char _ h1,
      b64Index_b64Char _ h2, b64Index_b64Char _ h3, b64Char_ne_pad _ h2,
      b64Char_ne_pad _ h3, ih, e1, e2, e3]

namespace CryptoModule

/-- Embeds `CryptoModule.arrayBufferToBase64`: the loop builds a binary
string whose character codes are the buffer's bytes (`String.fromCharCode`),
then applies `btoa`. -/
def arrayBufferToBase64 (buffer : List Nat) : List Nat :=
  btoaBytes buffer

/-- Embeds `CryptoModule.base64ToArrayBuffer`: applies `atob` and reads the
bytes back with `charCodeAt`; `none` models the thrown
`InvalidCharacterError` on invalid base64. -/
def base64ToArrayBuffer (base64 : List Nat) : Option (List Nat) :=
  atobBytes base64

end CryptoModule

/-! ## Key derivation and AEAD models -/

/-- Deterministic mixing fold used by the modelled cryptographic primitives. -/
def mixFold (seed : Nat) (bs : List Nat) : Nat :=
  bs.foldl (fun a b => (a * 257 + b + 1) % 1000003) seed

namespace CryptoModule

/-- Modelled from the spec: spec §4.1 key derivation — the source calls the
platform Web Crypto PBKDF2 (`CryptoModule.deriveKey`), which is not
repository code.  The model keeps the contract the claims rely on: a
deterministic function of the `(password, salt)` pair. -/
def deriveKey (password : String) (salt : List Nat) : Nat :=
  mixFold 7 (password.data.map Char.toNat ++ salt)

end CryptoModule

/-- Modelled from the spec: the 16-byte authentication tag of the AEAD
cipher (spec §4.2, §6: "ciphertext || 16-byte authentication tag"),
deterministic in key, nonce and plaintext; each tag byte is below 256. -/
def tagBytes (key : Nat) (nonce plain : List Nat) : List Nat :=
  (List.range 16).map fun i => (mixFold (key + i + 1) (nonce ++ plain)) % 256

/-- Modelled from the spec: AEAD encryption (`crypto.subtle.encrypt` with
AES-GCM in the source, platform code): ciphertext carrying the plaintext
plus the 16-byte authentication tag. -/
def aeadEncrypt (key : Nat) (nonce plain : List Nat) : List Nat :=
  plain ++ tagBytes key nonce plain

/-- Modelled from the spec: AEAD decryption (`crypto.subtle.decrypt`):
fails (`none`, the platform `OperationError`) when the input is too short to
hold the tag or when tag verification fails; otherwise returns the
plaintext. -/
def aeadDecrypt (key : Nat) (nonce ct : List Nat) : Option (List Nat) :=
  if ct.length < 16 then none
  else
    let plain := ct.take (ct.length - 16)
    let tag := ct.drop (ct.length - 16)
    if tag = tagBytes key nonce plain then some plain else none

theorem aeadDecrypt_aeadEncrypt (key : Nat) (nonce plain : List Nat) :
    aeadDecrypt key nonce (aeadEncrypt key nonce plain) = some plain := by
  have hlen : (aeadEncrypt key nonce plain).length = plain.length + 16 := by
    simp [aeadEncrypt, tagBytes]
  have htake : (aeadEncrypt key nonce plain).take plain.length = plain := by
    simp [aeadEncrypt, List.take_left']
  have hdrop : (aeadEncrypt key nonce plain).drop plain.length =
      tagBytes key nonce plain := by
    simp [aeadEncrypt, List.drop_left']
  simp [aeadDecrypt, hlen, htake, hdrop]

theorem mem_tagBytes_lt {b key : Nat} {nonce plain : List Nat}
    (h : b ∈ tagBytes key nonce plain) : b < 256 := by
  simp [tagBytes] at h
  obtain ⟨i, _, hi⟩ := h
  omega

/-! ## Sealed-envelope codec (`CryptoModule.encrypt` / `CryptoModule.decrypt`) -/

/-- Name of the underlying JS exception caught by `decrypt`'s handler. -/
inductive JsErrorName where
  | operationError
  | invalidCharacterError
  | jsonParseError
deriving DecidableEq, Repr

/-- The underlying JS exception as `decrypt`'s catch block observes it:
its `name` and whether its `message` contains the substring `decrypt`. -/
structure JsError where
  name : JsErrorName
  messageIncludesDecrypt : Bool
deriving DecidableEq, Repr

/-- The `InvalidCharacterError` thrown by `atob` on invalid base64; its
message ("string to be decoded is not correctly encoded") does not contain
`decrypt`. -/
def atobError : JsError := ⟨.invalidCharacterError, false⟩

/-- The `OperationError` thrown by `crypto.subtle.decrypt` when tag
verification fails (wrong key, tampered or truncated input). -/
def operationError : JsError := ⟨.operationError, false⟩

/-- The `SyntaxError` thrown by `JSON.parse` on non-JSON text ("Unexpected
token ..."); its message does not contain `decrypt`. -/
def jsonParseError : JsError := ⟨.jsonParseError, false⟩

/-- Error value thrown by `CryptoModule.decrypt`:
`decryptionFailed` is the single message "Decryption failed - incorrect
password or corrupted data"; `failedToDecrypt e` is the message
"Failed to decrypt data: " followed by the underlying error's message. -/
inductive DecryptError where
  | decryptionFailed
  | failedToDecrypt (e : JsError)
deriving DecidableEq, Repr

namespace CryptoModule

/-- Embeds the catch block of `CryptoModule.decrypt` (crypto.js lines
127-134): an `OperationError`, or any error whose message contains
`decrypt`, is reported as the single undifferentiated message; every other
error is reported as "Failed to decrypt data: " plus the cause. -/
def classifyCaught (e : JsError) : DecryptError :=
  if e.name = .operationError ∨ e.messageIncludesDecrypt then .decryptionFailed
  else .failedToDecrypt e

/-- Embeds `CryptoModule.encrypt` (crypto.js lines 54-91).  The random salt
and IV drawn from `crypto.getRandomValues` are passed explicitly.  Returns
the base64 envelope `salt ‖ iv ‖ ciphertext+tag`. -/
def encrypt (data : Doc) (password : String) (salt iv : List Nat) : List Nat :=
  let dataBuffer := encodeDoc data
  let key := deriveKey password salt
  let encryptedBuffer := aeadEncrypt key iv dataBuffer
  let combined := salt ++ iv ++ encryptedBuffer
  arrayBufferToBase64 combined

/-- Embeds the envelope parsing of `CryptoModule.decrypt` (crypto.js lines
104-107): `salt = combined.slice(0, 16)`, `iv = combined.slice(16, 28)`,
`encrypted = combined.slice(28)`. -/
def parseEnvelope (combined : List Nat) : List Nat × List Nat × List Nat :=
  (combined.take 16, (combined.drop 16).take 12, combined.drop 28)

/-- Embeds `CryptoModule.decrypt` (crypto.js lines 99-135): base64-decode,
split off salt and IV, derive the key, AEAD-decrypt, JSON-parse; every
thrown error goes through the catch block `classifyCaught`. -/
def decrypt (encryptedData : List Nat) (password : String) :
    Except DecryptError Doc :=
  match base64ToArrayBuffer encryptedData with
  | none => .error (classifyCaught atobError)
  | some combined =>
    let (salt, iv, encrypted) := parseEnvelope combined
    let key := deriveKey password salt
    match aeadDecrypt key iv encrypted with
    | none => .error (classifyCaught operationError)
    | some decryptedBuffer =>
      match decodeDoc decryptedBuffer with
      | none => .error (classifyCaught jsonParseError)
      | some doc => .ok doc

end CryptoModule

/-! ## Versioned document store client (`GitHubModule`) -/

/-- Outcome of the platform `fetch` call against the GitHub contents API, as
`GitHubModule.fetchEncryptedData` observes it: either the network layer
fails outright (the promise rejects), or an HTTP response arrives with a
status code and, for success responses, a JSON body carrying the base64
`content` and the blob `sha`. -/
inductive GhResponse where
  | networkFailure
  | http (status : Nat) (content : List Nat) (sha : List Nat)
deriving DecidableEq, Repr

/-- Error thrown out of `GitHubModule.fetchEncryptedData`. -/
inductive GhError where
  | network
  | api (status : Nat)
  | badContent
deriving DecidableEq, Repr

/-- Result of `GitHubModule.fetchEncryptedData`: the decoded file content
and its version token (the git blob SHA), both `none` when the file does
not exist yet. -/
structure FetchResult where
  content : Option (List Nat)
  sha : Option (List Nat)
deriving DecidableEq, Repr

namespace GitHubModule

/-- Embeds `GitHubModule.fetchEncryptedData` (crypto.js lines 226-261):
status 404 returns `{content: null, sha: null}`; any other non-ok status
throws a "GitHub API error"; an ok response has its base64 content stripped
of newlines and decoded with `atob` (a decoding failure is thrown and
rethrown).  A network failure of `fetch` itself propagates as an error. -/
def fetchEncryptedData (resp : GhResponse) : Except GhError FetchResult :=
  match resp with
  | .networkFailure => .error .network
  | .http status content sha =>
    if status = 404 then .ok ⟨none, none⟩
    else if ¬ (200 ≤ status ∧ status ≤ 299) then .error (.api status)
    else
      match atobBytes (content.filter (fun c => c ≠ 10)) with
      | none => .error .badContent
      | some decoded => .ok ⟨some decoded, some sha⟩

end GitHubModule

/-! ## Entry log analytics (`WheelChart`)

`Math.sqrt` is modelled by `Real.sqrt` and `Math.round x` by `⌊x + 1/2⌋`;
the integer sums and the final one-decimal rounding of `calculateAverages`
are exact in `ℚ`. -/

/-- The nine rating keys, in the order of `WheelChart.labels` and of the
object literal built by the entry form. -/
inductive RatingKey where
  | body | mind | soul | friends | romance | family | mission | money | growth
deriving DecidableEq, Repr

def Ratings.get (r : Ratings) : RatingKey → Int
  | .body => r.body
  | .mind => r.mind
  | .soul => r.soul
  | .friends => r.friends
  | .romance => r.romance
  | .family => r.family
  | .mission => r.mission
  | .money => r.money
  | .growth => r.growth

/-- `Object.values(ratings)` in label order. -/
def Ratings.values (r : Ratings) : List Int :=
  [r.body, r.mind, r.soul, r.friends, r.romance, r.family,
   r.mission, r.money, r.growth]

/-- JS `Math.round` on the real line (halves round up). -/
noncomputable def jsRound (x : ℝ) : ℝ := ((⌊x + 1 / 2⌋ : ℤ) : ℝ)

/-- JS `Math.round(x * 10) / 10` — round to one decimal place, exactly, on
rationals. -/
def jsRound1 (x : ℚ) : ℚ := ((⌊x * 10 + 1 / 2⌋ : ℤ) : ℚ) / 10

/-- Per-key averages returned by `WheelChart.calculateAverages`. -/
structure AvgRatings where
  body : ℚ
  mind : ℚ
  soul : ℚ
  friends : ℚ
  romance : ℚ
  family : ℚ
  mission : ℚ
  money : ℚ
  growth : ℚ
deriving DecidableEq, Repr

def AvgRatings.get (a : AvgRatings) : RatingKey → ℚ
  | .body => a.body
  | .mind => a.mind
  | .soul => a.soul
  | .friends => a.friends
  | .romance => a.romance
  | .family => a.family
  | .mission => a.mission
  | .money => a.money
  | .growth => a.growth

/-- Arithmetic mean of a list of integers, in `ℚ`. -/
def listMean (xs : List Int) : ℚ := (xs.sum : ℚ) / xs.length

/-- The per-key computation of `calculateAverages`:
`Math.round((sum / filteredEntries.length) * 10) / 10`. -/
def roundedMean (xs : List Int) : ℚ := jsRound1 (listMean xs)

/-- Milliseconds per day; `cutoffDate.setDate(cutoffDate.getDate() - days)`
is modelled as stepping the current instant back `days` uniform days. -/
def msPerDay : Int := 86400000

namespace WheelChart

/-- Embeds `WheelChart.getBalanceScore` (visualization.js lines 239-249):
`Math.max(0, 10 - stdDev)` of the nine values, rounded to one decimal. -/
noncomputable def getBalanceScore (ratings : Ratings) : ℝ :=
  let allValues : List ℝ := ratings.values.map (fun v => (v : ℝ))
  let avg := allValues.sum / (allValues.length : ℝ)
  let variance := (allValues.map (fun val => (val - avg) ^ 2)).sum / (allValues.length : ℝ)
  let stdDev := Real.sqrt variance
  let balanceScore := max 0 (10 - stdDev)
  jsRound (balanceScore * 10) / 10

/-- Embeds `WheelChart.calculateAverages`: `null` on no entries, filter by
the cutoff when a day window is given, `null` again when the filtered list
is empty, else the rounded per-key means.  `now` is the instant taken by
`new Date()`. -/
def calculateAverages (entries : List Entry) (now : Int) (days : Option Int) :
    Option AvgRatings :=
  if entries = [] then none
  else
    let filteredEntries := match days with
      | none => entries
      | some d => entries.filter fun e => now - d * msPerDay ≤ e.timestamp
    if filteredEntries = [] then none
    else some {
      body := roundedMean (filteredEntries.map fun e => e.ratings.body)
      mind := roundedMean (filteredEntries.map fun e => e.ratings.mind)
      soul := roundedMean (filteredEntries.map fun e => e.ratings.soul)
      friends := roundedMean (filteredEntries.map fun e => e.ratings.friends)
      romance := roundedMean (filteredEntries.map fun e => e.ratings.romance)
      family := roundedMean (filteredEntries.map fun e => e.ratings.family)
      mission := roundedMean (filteredEntries.map fun e => e.ratings.mission)
      money := roundedMean (filteredEntries.map fun e => e.ratings.money)
      growth := roundedMean (filteredEntries.map fun e => e.ratings.growth) }

/-- Embeds `WheelChart.filterByDateRange`: both bounds absent returns the
list unchanged, otherwise keeps the entries passing both (inclusive)
bounds. -/
def filterByDateRange (entries : List Entry) (startDate endDate : Option Int) :
    List Entry :=
  if startDate = none ∧ endDate = none then entries
  else
    entries.filter fun entry =>
      (match startDate with
       | none => true
       | some s => decide (s ≤ entry.timestamp)) &&
      (match endDate with
       | none => true
       | some e => decide (entry.timestamp ≤ e))

end WheelChart

/-! ## Application layer (`App`) -/

/-- Session state of `App.state` restricted to the fields the claims are
about. -/
structure AppState where
  data : Doc
  currentSHA : Option (List Nat)
  password : String
deriving DecidableEq, Repr

/-- Outcome of `GitHubModule.commitEncryptedData`, abstracted as an oracle
for the remote store: success returns the new content SHA from the
response; failure is any thrown error (network or API, including a version
conflict on a stale SHA). -/
inductive CommitOutcome where
  | ok (newSha : List Nat)
  | err
deriving DecidableEq, Repr

/-- Error surfaced (and rethrown) by `App.saveData`. -/
inductive SaveError where
  | commitFailed
deriving DecidableEq, Repr

namespace App

/-- Embeds `App.createEmptyData`: `{entries: [], version: "1.0"}`. -/
def createEmptyData : Doc := ⟨[], [49, 46, 48]⟩

/-- Embeds `App.saveData`: encrypts `state.data` with `state.password` and
commits it with the held `currentSHA`; on success the returned content SHA
replaces `currentSHA`; on failure the error is shown and rethrown, with no
change to the state.  `salt` and `iv` are the randomness of `encrypt`;
`remote` is the commit outcome. -/
def saveData (st : AppState) (salt iv : List Nat) (remote : CommitOutcome) :
    AppState × Except SaveError Unit :=
  let _encrypted := CryptoModule.encrypt st.data st.password salt iv
  match remote with
  | .ok newSha => ({ st with currentSHA := some newSha }, .ok ())
  | .err => (st, .error .commitFailed)

/-- Embeds `App.handleEntrySubmit` (main app file lines 222-259): builds the
entry from the parsed slider values, pushes it onto
`state.data.entries`, then awaits `saveData`.  `id` and `timestamp` stand
for `generateUUID()` and `new Date().toISOString()`. -/
def handleEntrySubmit (st : AppState) (ratings : Ratings) (notes : List Nat)
    (id : List Nat) (timestamp : Int) (salt iv : List Nat)
    (remote : CommitOutcome) : AppState × Except SaveError Unit :=
  let entry : Entry := ⟨id, timestamp, ratings, notes⟩
  let st1 : AppState :=
    { st with data := { st.data with entries := st.data.entries ++ [entry] } }
  saveData st1 salt iv remote

end App

/-! ## Spec-side definitions

These follow the words of the spec, to be compared with the embedded code
above. -/

/-- Spec §3: all nine keys present with each value an integer in 0..10. -/
def ratingsValid (r : Ratings) : Prop :=
  (0 ≤ r.body ∧ r.body ≤ 10) ∧ (0 ≤ r.mind ∧ r.mind ≤ 10) ∧
  (0 ≤ r.soul ∧ r.soul ≤ 10) ∧ (0 ≤ r.friends ∧ r.friends ≤ 10) ∧
  (0 ≤ r.romance ∧ r.romance ≤ 10) ∧ (0 ≤ r.family ∧ r.family ≤ 10) ∧
  (0 ≤ r.mission ∧ r.mission ≤ 10) ∧ (0 ≤ r.money ∧ r.money ≤ 10) ∧
  (0 ≤ r.growth ∧ r.growth ≤ 10)

instance (r : Ratings) : Decidable (ratingsValid r) := by
  unfold ratingsValid; infer_instance

/-- Spec §4.4: the population standard deviation of a list of reals. -/
noncomputable def popStdDev (xs : List ℝ) : ℝ :=
  let n : ℝ := xs.length
  let m : ℝ := xs.sum / n
  Real.sqrt ((xs.map (fun x => (x - m) ^ 2)).sum / n)

/-- Spec §4.4 `filterByRange`: inclusive bounds, absent bound unbounded. -/
def specInRange (startDate endDate : Option Int) (t : Int) : Bool :=
  startDate.all (fun s => s ≤ t) && endDate.all (fun e => t ≤ e)

/-- Spec §4.4 `periodAverages`: the entries kept by a window of `days`
days — those with timestamp at or after `now` minus the window — or all
entries when no window is given. -/
def specWindow (entries : List Entry) (now : Int) (days : Option Int) :
    List Entry :=
  match days with
  | none => entries
  | some d => entries.filter fun e => now - d * msPerDay ≤ e.timestamp

/-! ## Helper lemmas about the envelope layout -/

theorem parseEnvelope_append (salt iv ct : List Nat)
    (hs : salt.length = 16) (hi : iv.length = 12) :
    CryptoModule.parseEnvelope (salt ++ iv ++ ct) = (salt, iv, ct) := by
  have h1 : (salt ++ (iv ++ ct)).take 16 = salt := List.take_left' hs
  have h2 : (salt ++ (iv ++ ct)).drop 16 = iv ++ ct := List.drop_left' hs
  have h3 : (iv ++ ct).take 12 = iv := List.take_left' hi
  have h4 : ((salt ++ iv) ++ ct).drop 28 = ct :=
    List.drop_left' (by simp [hs, hi])
  rw [List.append_assoc] at h4
  simp [CryptoModule.parseEnvelope, h1, h2, h3, h4]

theorem mem_combined_lt {b key : Nat} {salt iv : List Nat} {d : Doc}
    (hsb : ∀ x ∈ salt, x < 256) (hib : ∀ x ∈ iv, x < 256)
    (hb : b ∈ salt ++ iv ++ aeadEncrypt key iv (encodeDoc d)) : b < 256 := by
  simp [aeadEncrypt] at hb
  rcases hb with h | h | h | h
  · exact hsb b h
  · exact hib b h
  · have := mem_encodeDoc_lt h; omega
  · exact mem_tagBytes_lt h

/-! ## Claims -/

/-- C10: the envelope transport codec round-trips exactly — for every byte
array `b`, `base64ToArrayBuffer (arrayBufferToBase64 b)` returns `b`, so the
base64 encoding in `encrypt` and decoding in `decrypt` lose no envelope
bytes. -/
theorem C10_base64_roundtrip (b : List Nat) (h : ∀ x ∈ b, x < 256) :
    CryptoModule.base64ToArrayBuffer (CryptoModule.arrayBufferToBase64 b)
      = some b :=
  atobBytes_btoaBytes b h

/-- Witness for C10 on a concrete byte array. -/
theorem C10_base64_roundtrip_witness :
    CryptoModule.base64ToArrayBuffer
      (CryptoModule.arrayBufferToBase64 [0, 255, 7, 61, 128]) =
      some [0, 255, 7, 61, 128] :=
  C10_base64_roundtrip [0, 255, 7, 61, 128] (by decide)

/-- C8: `filterByDateRange` returns exactly the entries within the
inclusive bounds (a subsequence of the input), an absent bound being
unbounded on its side, and returns the list unchanged when both bounds are
absent. -/
theorem C8_filter_by_date_range (entries : List Entry) (s e : Option Int) :
    WheelChart.filterByDateRange entries s e
        = entries.filter (fun en => specInRange s e en.timestamp) ∧
    (WheelChart.filterByDateRange entries s e).Sublist entries ∧
    WheelChart.filterByDateRange entries none none = entries := by
  refine ⟨?_, ?_, by simp [WheelChart.filterByDateRange]⟩
  · unfold WheelChart.filterByDateRange
    split
    · next h =>
      obtain ⟨h1, h2⟩ := h
      subst h1; subst h2
      simp [specInRange]
    · apply List.filter_congr
      intro x _
      cases s <;> cases e <;> simp [specInRange]
  · unfold WheelChart.filterByDateRange
    split
    · exact List.Sublist.refl entries
    · exact List.filter_sublist entries

/-- C9 (implicit): saving is not atomic with the in-memory document — the
entry-submission handler appends the new entry before invoking `saveData`,
and when the remote commit fails the appended entry remains in
`state.data.entries`, `state.currentSHA` is unchanged, and the error
propagates; there is no rollback. -/
theorem C9_no_rollback_on_failed_save (st : AppState) (ratings : Ratings)
    (notes id : List Nat) (ts : Int) (salt iv : List Nat) :
    (App.handleEntrySubmit st ratings notes id ts salt iv .err).1.data.entries
        = st.data.entries ++ [⟨id, ts, ratings, notes⟩] ∧
    (App.handleEntrySubmit st ratings notes id ts salt iv .err).1.currentSHA
        = st.currentSHA ∧
    (App.handleEntrySubmit st ratings notes id ts salt iv .err).2
        = .error .commitFailed := by
  simp [App.handleEntrySubmit, App.saveData]

/-- C3 counterexample: the entry-submission handler appends an out-of-range
rating set (body = 11) and reports success — it does not validate and does
not fail with a `ValidationError`. -/
theorem C3_counterexample :
    ¬ ratingsValid ⟨11, 5, 5, 5, 5, 5, 5, 5, 5⟩ ∧
    (App.handleEntrySubmit ⟨App.createEmptyData, none, "pw"⟩
        ⟨11, 5, 5, 5, 5, 5, 5, 5, 5⟩ [] [] 0
        (List.replicate 16 0) (List.replicate 12 0) (.ok [1])).1.data.entries
      = [⟨[], 0, ⟨11, 5, 5, 5, 5, 5, 5, 5, 5⟩, []⟩] ∧
    (App.handleEntrySubmit ⟨App.createEmptyData, none, "pw"⟩
        ⟨11, 5, 5, 5, 5, 5, 5, 5, 5⟩ [] [] 0
        (List.replicate 16 0) (List.replicate 12 0) (.ok [1])).2 = .ok () := by
  refine ⟨by decide, ?_, ?_⟩ <;>
    simp [App.handleEntrySubmit, App.saveData, App.createEmptyData]

/-- C3 (amended): the entry-submission handler performs no validation of
the ratings — for every rating set, valid or not, it unconditionally
appends the entry built from the parsed slider values to the entry
sequence (rating bounds are enforced only by the UI sliders, spec §9). -/
theorem C3_amended_no_validation (st : AppState) (ratings : Ratings)
    (notes id : List Nat) (ts : Int) (salt iv : List Nat)
    (remote : CommitOutcome) :
    (App.handleEntrySubmit st ratings notes id ts salt iv remote).1.data.entries
      = st.data.entries ++ [⟨id, ts, ratings, notes⟩] := by
  cases remote <;> simp [App.handleEntrySubmit, App.saveData]

/-- C5: fetching a never-written slot (HTTP 404) returns the absent-content
result `(content: null, sha: null)` as a non-error outcome; network
failures and non-ok statuses are raised as errors; and an absent-content
success can only arise from a 404, so "not found" is distinguishable from
transport failure. -/
theorem C5_fetch_not_found_vs_errors :
    (∀ content sha : List Nat,
      GitHubModule.fetchEncryptedData (.http 404 content sha) = .ok ⟨none, none⟩) ∧
    GitHubModule.fetchEncryptedData .networkFailure = .error .network ∧
    (∀ (status : Nat) (content sha : List Nat), status ≠ 404 →
      ¬ (200 ≤ status ∧ status ≤ 299) →
      GitHubModule.fetchEncryptedData (.http status content sha)
        = .error (.api status)) ∧
    (∀ (resp : GhResponse) (r : FetchResult),
      GitHubModule.fetchEncryptedData resp = .ok r → r.content = none →
      ∃ content sha, resp = .http 404 content sha) := by
  refine ⟨?_, rfl, ?_, ?_⟩
  · intro content sha
    simp [GitHubModule.fetchEncryptedData]
  · intro status content sha h404 hok
    simp [GitHubModule.fetchEncryptedData, h404, hok]
  · intro resp r hr hc
    cases resp with
    | networkFailure => simp [GitHubModule.fetchEncryptedData] at hr
    | http status content sha =>
      by_cases h404 : status = 404
      · exact ⟨content, sha, by rw [h404]⟩
      · by_cases hok : 200 ≤ status ∧ status ≤ 299
        · simp only [GitHubModule.fetchEncryptedData, if_neg h404,
            if_neg (not_not_intro hok)] at hr
          split at hr
          · exact absurd hr (by simp)
          · simp only [Except.ok.injEq] at hr
            subst hr
            simp at hc
        · simp [GitHubModule.fetchEncryptedData, h404, hok] at hr

/-- Witness for C5 at concrete responses. -/
theorem C5_fetch_not_found_vs_errors_witness :
    GitHubModule.fetchEncryptedData (.http 404 [] []) = .ok ⟨none, none⟩ ∧
    GitHubModule.fetchEncryptedData (.http 500 [] []) = .error (.api 500) := by
  constructor
  · exact C5_fetch_not_found_vs_errors.1 [] []
  · exact C5_fetch_not_found_vs_errors.2.2.1 500 [] [] (by decide) (by decide)

/-- C1: for every document and non-empty password, decrypting the envelope
produced by `encrypt` with the same password succeeds and returns the
document exactly, round-tripping byte-for-byte through the serialization
step.  The fresh random salt and IV drawn inside `encrypt` are quantified
with their `getRandomValues` characteristics (16 and 12 bytes below 256). -/
theorem C1_decrypt_encrypt_roundtrip (d : Doc) (p : String) (salt iv : List Nat)
    (_hp : p ≠ "") (hs : salt.length = 16) (hi : iv.length = 12)
    (hsb : ∀ x ∈ salt, x < 256) (hib : ∀ x ∈ iv, x < 256) :
    CryptoModule.decrypt (CryptoModule.encrypt d p salt iv) p = .ok d := by
  have hb64 : CryptoModule.base64ToArrayBuffer (CryptoModule.encrypt d p salt iv)
      = some (salt ++ iv ++
          aeadEncrypt (CryptoModule.deriveKey p salt) iv (encodeDoc d)) :=
    atobBytes_btoaBytes _ (fun b hb => mem_combined_lt hsb hib hb)
  have hparse : CryptoModule.parseEnvelope
      (salt ++ (iv ++ aeadEncrypt (CryptoModule.deriveKey p salt) iv (encodeDoc d)))
      = (salt, iv, aeadEncrypt (CryptoModule.deriveKey p salt) iv (encodeDoc d)) := by
    rw [← List.append_assoc]
    exact parseEnvelope_append salt iv
      (aeadEncrypt (CryptoModule.deriveKey p salt) iv (encodeDoc d)) hs hi
  rw [CryptoModule.decrypt, hb64]
  simp [hparse, aeadDecrypt_aeadEncrypt, decodeDoc_encodeDoc]

/-- Witness for C1 on a concrete document, password, salt and IV. -/
theorem C1_decrypt_encrypt_roundtrip_witness :
    CryptoModule.decrypt
      (CryptoModule.encrypt ⟨[], [49, 46, 48]⟩ "pw"
        (List.replicate 16 0) (List.replicate 12 0)) "pw"
      = .ok ⟨[], [49, 46, 48]⟩ :=
  C1_decrypt_encrypt_roundtrip ⟨[], [49, 46, 48]⟩ "pw"
    (List.replicate 16 0) (List.replicate 12 0)
    (by decide) (by decide) (by decide) (by decide) (by decide)

/-- C4: the envelope produced by `encrypt`, after base64 decoding, is
exactly `salt ‖ nonce ‖ ciphertext+tag` with the salt in bytes 0..15 and
the nonce in bytes 16..27, and `decrypt`'s parser recovers exactly those
three segments, so the layout and the parser agree. -/
theorem C4_envelope_layout (d : Doc) (p : String) (salt iv : List Nat)
    (hs : salt.length = 16) (hi : iv.length = 12)
    (hsb : ∀ x ∈ salt, x < 256) (hib : ∀ x ∈ iv, x < 256) :
    CryptoModule.base64ToArrayBuffer (CryptoModule.encrypt d p salt iv)
        = some (salt ++ iv ++
            aeadEncrypt (CryptoModule.deriveKey p salt) iv (encodeDoc d)) ∧
    CryptoModule.parseEnvelope
        (salt ++ iv ++ aeadEncrypt (CryptoModule.deriveKey p salt) iv (encodeDoc d))
        = (salt, iv, aeadEncrypt (CryptoModule.deriveKey p salt) iv (encodeDoc d)) := by
  exact ⟨atobBytes_btoaBytes _ (fun b hb => mem_combined_lt hsb hib hb),
    parseEnvelope_append _ _ _ hs hi⟩

/-- Witness for C4 on a concrete document, password, salt and IV. -/
theorem C4_envelope_layout_witness :
    CryptoModule.base64ToArrayBuffer
        (CryptoModule.encrypt ⟨[], [49, 46, 48]⟩ "pw"
          (List.replicate 16 1) (List.replicate 12 2))
      = some (List.replicate 16 1 ++ List.replicate 12 2 ++
          aeadEncrypt (CryptoModule.deriveKey "pw" (List.replicate 16 1))
            (List.replicate 12 2) (encodeDoc ⟨[], [49, 46, 48]⟩)) :=
  (C4_envelope_layout ⟨[], [49, 46, 48]⟩ "pw"
    (List.replicate 16 1) (List.replicate 12 2)
    (by decide) (by decide) (by decide) (by decide)).1

/-- C2 counterexample: not every failing input to `decrypt` is reported as
the single undifferentiated condition.  The envelope `"!"` (invalid base64)
fails with the distinct "Failed to decrypt data: ..." error carrying the
`atob` `InvalidCharacterError`, while the empty envelope (too short for the
tag) fails with the undifferentiated "Decryption failed" condition — two
failing inputs with differently identified errors. -/
theorem C2_counterexample :
    CryptoModule.decrypt [33] "password"
        = .error (.failedToDecrypt atobError) ∧
    CryptoModule.decrypt [] "password" = .error .decryptionFailed ∧
    DecryptError.failedToDecrypt atobError ≠ DecryptError.decryptionFailed := by
  exact ⟨rfl, rfl, by decide⟩

/-- C2 (amended): `decrypt` reports the single undifferentiated
"decryption failed" condition exactly for AEAD verification failures
(wrong password, tampered, corrupted or truncated envelope, including
envelopes too short for salt, nonce and tag); but an envelope whose base64
decoding fails, or a decrypted plaintext that fails JSON parsing, is
reported with the distinct "Failed to decrypt data" error naming the
underlying cause, because the catch block unifies only errors that are
`OperationError`s or mention `decrypt`. -/
theorem C2_amended_error_classification :
    (∀ (env : List Nat) (p : String),
      CryptoModule.base64ToArrayBuffer env = none →
      CryptoModule.decrypt env p = .error (.failedToDecrypt atobError)) ∧
    (∀ (env : List Nat) (p : String) (combined : List Nat),
      CryptoModule.base64ToArrayBuffer env = some combined →
      aeadDecrypt (CryptoModule.deriveKey p (combined.take 16))
        ((combined.drop 16).take 12) (combined.drop 28) = none →
      CryptoModule.decrypt env p = .error .decryptionFailed) ∧
    (∀ (env : List Nat) (p : String) (combined plain : List Nat),
      CryptoModule.base64ToArrayBuffer env = some combined →
      aeadDecrypt (CryptoModule.deriveKey p (combined.take 16))
        ((combined.drop 16).take 12) (combined.drop 28) = some plain →
      decodeDoc plain = none →
      CryptoModule.decrypt env p = .error (.failedToDecrypt jsonParseError)) := by
  refine ⟨?_, ?_, ?_⟩
  · intro env p h
    rw [CryptoModule.decrypt, h]
    rfl
  · intro env p combined h haead
    rw [CryptoModule.decrypt, h]
    simp only [CryptoModule.parseEnvelope, haead]
    rfl
  · intro env p combined plain h haead hjson
    rw [CryptoModule.decrypt, h]
    simp only [CryptoModule.parseEnvelope, haead, hjson]
    rfl

/-- Witness for C2 (amended): the three branches at concrete envelopes —
invalid base64, an AEAD failure (empty envelope), and a validly sealed
envelope whose plaintext is not a serialized document. -/
theorem C2_amended_error_classification_witness :
    CryptoModule.decrypt [33] "pw" = .error (.failedToDecrypt atobError) ∧
    CryptoModule.decrypt [] "pw" = .error .decryptionFailed ∧
    CryptoModule.decrypt
        (btoaBytes (List.replicate 16 0 ++ List.replicate 12 0 ++
          aeadEncrypt (CryptoModule.deriveKey "pw" (List.replicate 16 0))
            (List.replicate 12 0) [1])) "pw"
      = .error (.failedToDecrypt jsonParseError) := by
  refine ⟨C2_amended_error_classification.1 [33] "pw" (by decide),
    C2_amended_error_classification.2.1 [] "pw" [] (by decide) (by decide),
    C2_amended_error_classification.2.2 _ "pw"
      (List.replicate 16 0 ++ List.replicate 12 0 ++
        aeadEncrypt (CryptoModule.deriveKey "pw" (List.replicate 16 0))
          (List.replicate 12 0) [1]) [1] ?_ (by decide) (by decide)⟩
  exact atobBytes_btoaBytes _ (by decide)

theorem jsRound_eq (x : ℝ) (z : ℤ) (h1 : (z : ℝ) ≤ x + 1 / 2)
    (h2 : x + 1 / 2 < z + 1) : jsRound x = (z : ℝ) := by
  unfold jsRound
  rw [Int.floor_eq_iff.mpr ⟨h1, by linarith⟩]

theorem jsRound1_eq (x : ℚ) (z : ℤ) (h1 : (z : ℚ) ≤ x * 10 + 1 / 2)
    (h2 : x * 10 + 1 / 2 < z + 1) : jsRound1 x = (z : ℚ) / 10 := by
  unfold jsRound1
  rw [Int.floor_eq_iff.mpr ⟨h1, by linarith⟩]

theorem getBalanceScore_formula (r : Ratings) :
    WheelChart.getBalanceScore r
      = jsRound (max 0 (10 - popStdDev (r.values.map (fun v => (v : ℝ)))) * 10)
          / 10 := rfl

/-- C6: the balance score is `max(0, 10 − population standard deviation)`
of the nine values, rounded to one decimal; all nine at 5 score exactly
10.0, and one dimension at 0 with the rest at 10 scores strictly below
10. -/
theorem C6_balance_score :
    (∀ r : Ratings,
      WheelChart.getBalanceScore r
        = jsRound (max 0 (10 - popStdDev (r.values.map (fun v => (v : ℝ)))) * 10)
            / 10) ∧
    WheelChart.getBalanceScore ⟨5, 5, 5, 5, 5, 5, 5, 5, 5⟩ = 10 ∧
    WheelChart.getBalanceScore ⟨0, 10, 10, 10, 10, 10, 10, 10, 10⟩ < 10 := by
  refine ⟨fun r => getBalanceScore_formula r, ?_, ?_⟩
  · rw [getBalanceScore_formula]
    have hp5 : popStdDev
        ((Ratings.values ⟨5, 5, 5, 5, 5, 5, 5, 5, 5⟩).map (fun v => (v : ℝ)))
        = 0 := by
      simp [popStdDev, Ratings.values]
      norm_num
    rw [hp5]
    have h100 : jsRound (max 0 (10 - 0) * 10) = ((100 : ℤ) : ℝ) :=
      jsRound_eq _ 100 (by norm_num) (by norm_num)
    rw [h100]
    norm_num
  · rw [getBalanceScore_formula]
    have hp : popStdDev
        ((Ratings.values ⟨0, 10, 10, 10, 10, 10, 10, 10, 10⟩).map (fun v => (v : ℝ)))
        = Real.sqrt (800 / 81) := by
      simp only [popStdDev, Ratings.values, List.map_cons, List.map_nil]
      norm_num
    rw [hp]
    have hs3 : (3 : ℝ) < Real.sqrt (800 / 81) :=
      (Real.lt_sqrt (by norm_num)).mpr (by norm_num)
    have h0m : (0 : ℝ) ≤ max 0 (10 - Real.sqrt (800 / 81)) := le_max_left _ _
    have hmax : max 0 (10 - Real.sqrt (800 / 81)) < 7 :=
      max_lt (by norm_num) (by linarith)
    have hfl : ⌊max 0 (10 - Real.sqrt (800 / 81)) * 10 + 1 / 2⌋ < (100 : ℤ) :=
      Int.floor_lt.mpr (by push_cast; nlinarith)
    have hz : ⌊max 0 (10 - Real.sqrt (800 / 81)) * 10 + 1 / 2⌋ ≤ (99 : ℤ) := by
      omega
    have hcast : ((⌊max 0 (10 - Real.sqrt (800 / 81)) * 10 + 1 / 2⌋ : ℤ) : ℝ)
        ≤ 99 := by
      exact_mod_cast hz
    unfold jsRound
    linarith

/-- C7 counterexample: `calculateAverages` does not return the exact
arithmetic mean — three entries with body ratings 1, 1, 2 yield a body
average of 1.3, not the mean 4/3. -/
theorem C7_counterexample :
    (WheelChart.calculateAverages
        [⟨[], 0, ⟨1, 5, 5, 5, 5, 5, 5, 5, 5⟩, []⟩,
         ⟨[], 0, ⟨1, 5, 5, 5, 5, 5, 5, 5, 5⟩, []⟩,
         ⟨[], 0, ⟨2, 5, 5, 5, 5, 5, 5, 5, 5⟩, []⟩] 0 none).map AvgRatings.body
      = some (13 / 10) ∧
    listMean [1, 1, 2] = 4 / 3 ∧ ((13 : ℚ) / 10) ≠ 4 / 3 := by
  have hlm : listMean [(1 : ℤ), 1, 2] = 4 / 3 := by norm_num [listMean]
  have h13 : jsRound1 (listMean [(1 : ℤ), 1, 2]) = 13 / 10 := by
    rw [hlm]
    have := jsRound1_eq (4 / 3) 13 (by norm_num) (by norm_num)
    simpa using this
  refine ⟨?_, hlm, by norm_num⟩
  simp [WheelChart.calculateAverages, roundedMean, h13]

/-- C7 (amended): `calculateAverages` keeps exactly the entries whose
timestamp is at or after `now` minus the day window (all entries when no
window is given), returns `null` exactly when the filtered set is empty,
and otherwise returns, for each of the nine keys independently, the
arithmetic mean of that key's values over the filtered entries rounded to
one decimal place (`Math.round(mean * 10) / 10`). -/
theorem C7_amended_period_averages (entries : List Entry) (now : Int)
    (days : Option Int) :
    (WheelChart.calculateAverages entries now days = none ↔
      specWindow entries now days = []) ∧
    (∀ m, WheelChart.calculateAverages entries now days = some m →
      ∀ k, m.get k
        = jsRound1 (listMean ((specWindow entries now days).map
            (fun e => e.ratings.get k)))) := by
  cases days with
  | none =>
    have hsw : specWindow entries now none = entries := rfl
    by_cases h0 : entries = []
    · subst h0
      refine ⟨by simp [WheelChart.calculateAverages, hsw], ?_⟩
      intro m hm
      simp [WheelChart.calculateAverages] at hm
    · refine ⟨?_, ?_⟩
      · simp [WheelChart.calculateAverages, hsw, h0]
      · intro m hm
        simp only [WheelChart.calculateAverages, if_neg h0] at hm
        simp only [Option.some.injEq] at hm
        subst hm
        intro k
        cases k <;> simp [AvgRatings.get, Ratings.get, roundedMean, hsw]
  | some d =>
    have hsw : specWindow entries now (some d)
        = entries.filter (fun e => decide (now - d * msPerDay ≤ e.timestamp)) := rfl
    by_cases h0 : entries = []
    · subst h0
      refine ⟨by simp [WheelChart.calculateAverages, hsw], ?_⟩
      intro m hm
      simp [WheelChart.calculateAverages] at hm
    · by_cases h1 : entries.filter
          (fun e => decide (now - d * msPerDay ≤ e.timestamp)) = []
      · refine ⟨?_, ?_⟩
        · simp only [WheelChart.calculateAverages, if_neg h0]
          rw [if_pos h1, hsw]
          exact iff_of_true rfl h1
        · intro m hm
          simp only [WheelChart.calculateAverages, if_neg h0] at hm
          rw [if_pos h1] at hm
          exact absurd hm (by simp)
      · refine ⟨?_, ?_⟩
        · simp only [WheelChart.calculateAverages, if_neg h0]
          rw [if_neg h1, hsw]
          exact iff_of_false (by simp) h1
        · intro m hm
          simp only [WheelChart.calculateAverages, if_neg h0] at hm
          rw [if_neg h1] at hm
          simp only [Option.some.injEq] at hm
          subst hm
          intro k
          cases k <;> simp [AvgRatings.get, Ratings.get, roundedMean, hsw]

/-- Witness for C7 (amended) on a concrete entry list: a single in-window
entry with body rating 7 gives the rounded mean 7. -/
theorem C7_amended_period_averages_witness :
    (AvgRatings.get
        ⟨7, 5, 5, 5, 5, 5, 5, 5, 5⟩ RatingKey.body)
      = jsRound1 (listMean ((specWindow
          [⟨[], 0, ⟨7, 5, 5, 5, 5, 5, 5, 5, 5⟩, []⟩] 0 none).map
            (fun e => e.ratings.get RatingKey.body))) := by
  have h7 : jsRound1 (listMean [(7 : ℤ)]) = 7 := by
    have hl : listMean [(7 : ℤ)] = 7 := by norm_num [listMean]
    rw [hl, jsRound1_eq 7 70 (by norm_num) (by norm_num)]
    norm_num
  have h5 : jsRound1 (listMean [(5 : ℤ)]) = 5 := by
    have hl : listMean [(5 : ℤ)] = 5 := by norm_num [listMean]
    rw [hl, jsRound1_eq 5 50 (by norm_num) (by norm_num)]
    norm_num
  exact (C7_amended_period_averages
      [⟨[], 0, ⟨7, 5, 5, 5, 5, 5, 5, 5, 5⟩, []⟩] 0 none).2
    ⟨7, 5, 5, 5, 5, 5, 5, 5, 5⟩
    (by simp [WheelChart.calculateAverages, roundedMean, h7, h5])
    RatingKey.body

end WheelOfLife
